import Mathlib

/-
Verification development for the extraction core of `parse_md_file.py`.

The Python source works on Unicode text lines; here a piece of text is a
`List Char` (`Str`).  All regular expressions of the source are hand-rolled
into explicit matchers that implement the same semantics (leftmost match,
greedy/lazy repetition and the alternation order of the original pattern),
and every `while` loop of the source becomes a fuel-indexed recursive
function.  Each loop of the source advances its line index by at least one
per iteration and stops once the index reaches the number of lines, so a
fuel of `lines.length + 1 - start` makes the fuel-out branch unreachable;
the fuel-out branch returns exactly what the loop's normal exit returns at
that point.  Python's `str.splitlines` is modelled for documents whose line
terminator is a newline character, which covers every document considered
here.  `\s`, `str.strip` and friends are modelled on the whitespace set
space, tab, newline, carriage return, vertical tab, form feed and the
ideographic space; `\w` (used only for the word boundary of the standalone
`or` splitter) and `str.isalpha` are modelled on ASCII alphanumerics plus
the CJK unified ideographs, the character classes that actually occur in
the documents this tool processes.

The one fallible spot of the source is modelled with `Option`:
`extract_rows` indexes `results_str.split("from")[1].split("to")[1]`
without guarding the second index, which raises `IndexError` when the
text after the first `from` has no `to`; the embedding returns `none`
exactly there.
-/

namespace ParseMd

set_option maxRecDepth 200000

abbrev Str := List Char

/-- Python whitespace (`\s`, `str.strip`) for the characters that occur here. -/
def pyIsSpace (c : Char) : Bool :=
  c = ' ' || c = '\t' || c = '\n' || c = '\r' || c = '\x0b' || c = '\x0c' || c = '　'

def lstrip (s : Str) : Str := s.dropWhile pyIsSpace

def rstrip (s : Str) : Str := (s.reverse.dropWhile pyIsSpace).reverse

/-- Python `str.strip()`. -/
def strip (s : Str) : Str := lstrip (rstrip s)

/-- Python `line.rstrip("\n")`. -/
def rstripNl (s : Str) : Str := (s.reverse.dropWhile (· = '\n')).reverse

/-- Bool test that `pre` is a prefix of `s`. -/
def hasPre (s pre : Str) : Bool := pre.isPrefixOf s

/-- Index of the first occurrence of `pat` in `s` (at or after offset `i`of the
original string, the accumulator); `pat = []` matches immediately, like Python. -/
def findSubAux (pat : Str) : Str → Nat → Option Nat
  | [], i => if pat = [] then some i else none
  | c :: rest, i =>
    if hasPre (c :: rest) pat then some i else findSubAux pat rest (i + 1)

/-- Python `pat in s` (substring containment). -/
def containsSub (s pat : Str) : Bool := (findSubAux pat s 0).isSome

/-- Split at the first occurrence of `sep`: `(before, after)` without the
separator, or `none` when `sep` does not occur. -/
def breakSub (s sep : Str) : Option (Str × Str) :=
  match findSubAux sep s 0 with
  | none => none
  | some i => some (s.take i, s.drop (i + sep.length))

/-- Python `s.split(sep, 1)`, as a pair (`s` whole with empty tail when `sep`
is absent). -/
def splitFirst (s sep : Str) : Str × Str :=
  match breakSub s sep with
  | none => (s, [])
  | some p => p

/-- Python `s.split(sep)` for a non-empty `sep`, fuel-indexed. -/
def pySplitGo (sep : Str) : Nat → Str → List Str
  | 0, s => [s]
  | Nat.succ fuel, s =>
    match breakSub s sep with
    | none => [s]
    | some (a, b) => a :: pySplitGo sep fuel b

/-- Python `s.split(sep)` for a non-empty `sep`. -/
def pySplit (s sep : Str) : List Str := pySplitGo sep (s.length + 1) s

/-- Join a list of strings with a separator. -/
def joinSep (sep : Str) : List Str → Str
  | [] => []
  | [x] => x
  | x :: y :: rest => x ++ sep ++ joinSep sep (y :: rest)

/-- Explicit flat map, used for the row-multiplying loops of `extract_rows`. -/
def flat_map (f : α → List β) : List α → List β
  | [] => []
  | x :: xs => f x ++ flat_map f xs

/-- Python `re.sub(r"\s+", " ", text)`: collapse each whitespace run to one
space.  The boolean flag records whether the previous character was
whitespace (already collapsed). -/
def collapseWsGo : Bool → Str → Str
  | _, [] => []
  | prevWs, c :: rest =>
    if pyIsSpace c then
      if prevWs then collapseWsGo true rest else ' ' :: collapseWsGo true rest
    else c :: collapseWsGo false rest

def collapseWs (s : Str) : Str := collapseWsGo false s

/-- `strip_braces`: remove every brace character, keep the content. -/
def strip_braces (t : Str) : Str := t.filter (fun c => c != '{' && c != '}')

/-- `strip_brackets_pair`: `re.sub(r"【[^】]*】", "", text)` — drop every
CJK-bracket group; an opening bracket with no closing one is kept. -/
def strip_brackets_pair_go : Nat → Str → Str
  | 0, s => s
  | Nat.succ fuel, s =>
    match s with
    | [] => []
    | c :: rest =>
      if c = '【' then
        match findSubAux ['】'] rest 0 with
        | some i => strip_brackets_pair_go fuel (rest.drop (i + 1))
        | none => c :: strip_brackets_pair_go fuel rest
      else c :: strip_brackets_pair_go fuel rest

def strip_brackets_pair (t : Str) : Str := strip_brackets_pair_go (t.length + 1) t

/-- `strip_colon`: full-width colon to ASCII colon. -/
def strip_colon (t : Str) : Str := t.map (fun c => if c = '：' then ':' else c)

/-- `normalize_text` of the source: strip, drop 【...】 groups, drop braces,
collapse whitespace, normalize colons, strip again. -/
def normalize_text (t : Str) : Str :=
  strip (strip_colon (collapseWs (strip_braces (strip_brackets_pair (strip t)))))

/-- Python `text.splitlines()` for newline-terminated documents: split on
the newline character, with no empty final line for a trailing newline and
`[]` for the empty document. -/
def splitlines (t : Str) : List Str :=
  if t = [] then []
  else
    let ps := pySplit t ['\n']
    if ps.getLast? = some [] then ps.dropLast else ps

def allWs (s : Str) : Bool := s.all pyIsSpace

def digitRun (s : Str) : Str × Str := (s.takeWhile Char.isDigit, s.dropWhile Char.isDigit)

/-- Consume `(?:\.\d+)+` greedily: the maximal run of `.digits` groups.
Returns the consumed text and the rest; consumed `= []` when no group matched. -/
def dottedTailGo : Nat → Str → Str × Str
  | 0, s => ([], s)
  | Nat.succ fuel, s =>
    match s with
    | '.' :: rest =>
      let (ds, r2) := digitRun rest
      if ds = [] then ([], s)
      else
        let (more, r3) := dottedTailGo fuel r2
        ('.' :: (ds ++ more), r3)
    | _ => ([], s)

/-- One `Heading` dictionary of the source: dotted number, title, optional id. -/
structure Heading where
  num : Str
  title : Str
  id : Option Str
deriving DecidableEq, Repr

/-- Match `(?:【(?P<id>[^】]+)】)?\s*$` at the start of `u`. -/
def idGroupAt (u : Str) : Option Str :=
  match u with
  | '【' :: rest =>
    match findSubAux ['】'] rest 0 with
    | none => none
    | some i =>
      if i = 0 then none
      else if allWs (rest.drop (i + 1)) then some (rest.take i) else none
  | _ => none

/-- The lazy `(?P<title>.*?)(?:【id】)?\s*$` part of `HEADING_RE`: the shortest
title prefix after which either an id group followed by trailing whitespace, or
only trailing whitespace, remains. -/
def headingSplitGo (accRev : Str) : Str → Str × Option Str
  | [] => (accRev.reverse, none)
  | c :: rest =>
    match idGroupAt (c :: rest) with
    | some id0 => (accRev.reverse, some id0)
    | none =>
      if allWs (c :: rest) then (accRev.reverse, none)
      else headingSplitGo (c :: accRev) rest

/-- `is_heading`: match `HEADING_RE` against `line.strip()` and build the
`Heading`; the number needs at least two dot-separated components and must be
followed by whitespace. -/
def is_heading (line : Str) : Option Heading :=
  let t := (strip line).dropWhile pyIsSpace
  let (d1, r1) := digitRun t
  if d1 = [] then none
  else
    let (tail, r2) := dottedTailGo (r1.length + 1) r1
    if tail = [] then none
    else
      match r2 with
      | c :: _ =>
        if pyIsSpace c then
          let r3 := r2.dropWhile pyIsSpace
          let (titleRaw, idOpt) := headingSplitGo [] r3
          some ⟨d1 ++ tail, strip titleRaw, idOpt⟩
        else none
      | [] => none

/-- `heading_level`: number of dot-separated components of the heading number. -/
def heading_level (num : Str) : Nat := (pySplit num ['.']).length

def phraseAll : Str := "以下条件同时满足".toList

def phraseAny : Str := "以下条件满足其一".toList

/-- `BRANCH_HEADER_RE`: `^\s*\d+\.\s*(以下条件同时满足|以下条件满足其一)\s*[:：]?\s*$`. -/
def branch_header_match (line : Str) : Bool :=
  let t := line.dropWhile pyIsSpace
  let (d, r1) := digitRun t
  if d = [] then false
  else
    match r1 with
    | '.' :: r2 =>
      let r3 := r2.dropWhile pyIsSpace
      let rest4 : Option Str :=
        if hasPre r3 phraseAll then some (r3.drop phraseAll.length)
        else if hasPre r3 phraseAny then some (r3.drop phraseAny.length)
        else none
      match rest4 with
      | none => false
      | some r4 =>
        let r5 := r4.dropWhile pyIsSpace
        let r6 := match r5 with
                  | ':' :: r => r
                  | '：' :: r => r
                  | _ => r5
        allWs r6
    | _ => false

/-- `SUBITEM_RE`: `^\s{2,}\d+\.\s*(.+)$`; returns group 1 (`.+` needs at least
one character, so for an all-whitespace rest the greedy `\s*` gives one back). -/
def subitem_match (line : Str) : Option Str :=
  let w := line.takeWhile pyIsSpace
  if w.length < 2 then none
  else
    let (d, r1) := digitRun (line.drop w.length)
    if d = [] then none
    else
      match r1 with
      | '.' :: rest =>
        if rest = [] then none
        else
          let r2 := rest.dropWhile pyIsSpace
          some (if r2 = [] then [rest.getLastD ' '] else r2)
      | _ => none

/-- `^\s*\d+\.\s*(.*)$` (the numbering stripper used for plain lines). -/
def numdot_match (line : Str) : Option Str :=
  let t := line.dropWhile pyIsSpace
  let (d, r1) := digitRun t
  if d = [] then none
  else
    match r1 with
    | '.' :: rest => some (rest.dropWhile pyIsSpace)
    | _ => none

/-- `^\s{2,}\S` : at least two leading whitespace characters then a
non-whitespace character. -/
def indent2_match (line : Str) : Bool :=
  let w := line.takeWhile pyIsSpace
  2 ≤ w.length && w.length < line.length

/-- `^\s*[CB]平台`. -/
def platform_match (line : Str) : Bool :=
  match line.dropWhile pyIsSpace with
  | c :: rest => (c = 'C' || c = 'B') && hasPre rest ['平', '台']
  | [] => false

/-- `^\s*\{?FSM_index`. -/
def fsm_match (line : Str) : Bool :=
  let t := line.dropWhile pyIsSpace
  let t2 := match t with
            | '{' :: r => r
            | _ => t
  hasPre t2 "FSM_index".toList

/-- Word characters for the `\b` boundaries of `re.split(r"\bor\b", ...)`:
ASCII alphanumerics, the underscore and the CJK ideographs used here. -/
def isWordChar (c : Char) : Bool :=
  ('a' ≤ c && c ≤ 'z') || ('A' ≤ c && c ≤ 'Z') || ('0' ≤ c && c ≤ '9') || c = '_' ||
  ('一' ≤ c && c ≤ '龥')

def isOrPair (c1 c2 : Char) : Bool := (c1 = 'o' || c1 = 'O') && (c2 = 'r' || c2 = 'R')

/-- Split on every word-bounded, case-insensitive `or`, left to right. -/
def splitOrGo (prev : Option Char) (buf : Str) : Str → List Str
  | c1 :: c2 :: rest =>
    if isOrPair c1 c2 && (prev.elim true (fun p => !isWordChar p))
        && (rest.head?.elim true (fun n => !isWordChar n)) then
      buf.reverse :: splitOrGo (some c2) [] rest
    else splitOrGo (some c1) (c1 :: buf) (c2 :: rest)
  | [c] => [(c :: buf).reverse]
  | [] => [buf.reverse]

/-- `split_conditions_by_or`: split on standalone `or`, strip the parts, drop
the empty ones. -/
def split_conditions_by_or (cond : Str) : List Str :=
  ((splitOrGo none [] cond).map strip).filter (· ≠ [])

/-- Operator alternation of `_EXPL_HEAD_RE` and the annotation patterns, in
the order of the pattern. -/
def opsHead : List Str :=
  [['=', '='], ['>', '='], ['<', '='], ['!', '='], ['='], ['>'], ['<'],
   ['＞', '＝'], ['＜', '＝'], ['≥'], ['≤'], ['≠'], ['＞'], ['＜'], ['＝']]

/-- Operator list of `handle_parse_conditions_item` (searched by substring
containment, with `=` last). -/
def opsItem : List Str :=
  [['=', '='], ['>', '='], ['<', '='], ['!', '='], ['>'], ['<'], ['=']]

/-- ASCII operator alternation of `find_op_rhs_start` and of the
prefixed-signal lookahead. -/
def opsAscii : List Str :=
  [['=', '='], ['>', '='], ['<', '='], ['!', '='], ['='], ['>'], ['<']]

/-- First operator of `ops` that is a prefix of `s`, with the rest. -/
def matchFirstOpPre (s : Str) : List Str → Option (Str × Str)
  | [] => none
  | op :: ops => if hasPre s op then some (op, s.drop op.length) else matchFirstOpPre s ops

def unitList : List Str :=
  ["kph", "kmh", "kmph", "mph", "rpm", "kpa", "pa", "bar", "hz", "khz", "mhz",
   "ghz", "v", "a", "ma", "ua", "mv", "g", "kg", "n"].map String.toList

def toLowerStr (s : Str) : Str := s.map Char.toLower

def isUnitWord (s : Str) : Bool := unitList.any (fun u => toLowerStr s = u)

/-- `[-+]?\d+(?:\.\d+)?` at the start of `s`; the fraction is greedy (a
consumed fraction is never given back: without it the next character is a
dot, which neither `\s*` nor a unit word accepts). -/
def numPrefix (s : Str) : Option (Str × Str) :=
  let sgn : Str × Str := match s with
    | '-' :: r => (['-'], r)
    | '+' :: r => (['+'], r)
    | _ => ([], s)
  let (d1, r1) := digitRun sgn.2
  if d1 = [] then none
  else
    match r1 with
    | '.' :: r2 =>
      let (d2, r3) := digitRun r2
      if d2 = [] then some (sgn.1 ++ d1, r1) else some (sgn.1 ++ d1 ++ '.' :: d2, r3)
    | _ => some (sgn.1 ++ d1, r1)

/-- `insert_space_number_unit`: `135kph -> 135 kph` when the whole value is a
number followed by a recognized unit token. -/
def insert_space_number_unit (val : Str) : Str :=
  match numPrefix val with
  | none => val
  | some (num, rest) =>
    let rest2 := rest.dropWhile pyIsSpace
    if rest2.isEmpty then val
    else if isUnitWord rest2 then num ++ ' ' :: rest2 else val

def isAsciiUpper (c : Char) : Bool := 'A' ≤ c && c ≤ 'Z'

def isAsciiLower (c : Char) : Bool := 'a' ≤ c && c ≤ 'z'

def isAsciiLetter (c : Char) : Bool := isAsciiUpper c || isAsciiLower c

def isAsciiDigit (c : Char) : Bool := '0' ≤ c && c ≤ '9'

def isHexDigit (c : Char) : Bool :=
  isAsciiDigit c || ('a' ≤ c && c ≤ 'f') || ('A' ≤ c && c ≤ 'F')

def isCJK (c : Char) : Bool := '一' ≤ c && c ≤ '龥'

/-- Per-position replacement driver for `re.sub`: at each position try the
matcher; on a match emit the replacement and continue after the matched span
(every pattern here matches at least one character), otherwise keep the
character and move on. -/
def subScanGo (try1 : Str → Option (Str × Str)) : Nat → Str → Str
  | 0, s => s
  | Nat.succ _, [] => []
  | Nat.succ fuel, c :: rest =>
    match try1 (c :: rest) with
    | some (repl, rest2) =>
      if rest2.length < (c :: rest).length then repl ++ subScanGo try1 fuel rest2
      else c :: subScanGo try1 fuel rest
    | none => c :: subScanGo try1 fuel rest

def pySub (try1 : Str → Option (Str × Str)) (s : Str) : Str :=
  subScanGo try1 (s.length + 1) s

/-- `\{[^{}]+\}` at the start of `s`: the consumed text (braces included) and
the rest. -/
def parseBraced : Str → Option (Str × Str)
  | '{' :: rest =>
    let content := rest.takeWhile (fun c => c != '{' && c != '}')
    if content = [] then none
    else
      match rest.drop content.length with
      | '}' :: r2 => some ('{' :: (content ++ ['}']), r2)
      | _ => none
  | _ => none

/-- `_EXPL_HEAD_RE` (`braced \s* op \s*`), capturing the raw consumed text. -/
def parseHead (s : Str) : Option (Str × Str) :=
  match parseBraced s with
  | none => none
  | some (br, r1) =>
    let w1 := r1.takeWhile pyIsSpace
    match matchFirstOpPre (r1.drop w1.length) opsHead with
    | none => none
    | some (op, r3) =>
      let w2 := r3.takeWhile pyIsSpace
      some (br ++ w1 ++ op ++ w2, r3.drop w2.length)

def isParenOrColon (c : Char) : Bool :=
  c = '(' || c = ')' || c = '（' || c = '）' || c = ':'

/-- `\(\s*([^()（）:]+?)\s*\)|（\s*([^()（）:]+?)\s*）`: a parenthesized
annotation whose closing paren has the width of the opening one.  Returns
(consumed, inner content, rest); the callers strip the content. -/
def parseParenAnnot (s : Str) : Option (Str × Str × Str) :=
  match s with
  | '(' :: rest =>
    let content := rest.takeWhile (fun c => !isParenOrColon c)
    if content = [] then none
    else
      match rest.drop content.length with
      | ')' :: r2 => some ('(' :: (content ++ [')']), content, r2)
      | _ => none
  | '（' :: rest =>
    let content := rest.takeWhile (fun c => !isParenOrColon c)
    if content = [] then none
    else
      match rest.drop content.length with
      | '）' :: r2 => some ('（' :: (content ++ ['）']), content, r2)
      | _ => none
  | _ => none

/-- Like `parseParenAnnot` but for `pattern_paren`, whose closing alternation
`(?:\)|）)` accepts either width. -/
def parseParenExpl (s : Str) : Option (Str × Str × Str) :=
  match s with
  | c :: rest =>
    if c = '(' || c = '（' then
      let content := rest.takeWhile (fun c2 => !isParenOrColon c2)
      if content = [] then none
      else
        match rest.drop content.length with
        | c2 :: r2 =>
          if c2 = ')' || c2 = '）' then some (c :: (content ++ [c2]), content, r2) else none
        | [] => none
    else none
  | [] => none

/-- The lookahead `(?=(?:\s*(?:&&|\|\|)|\s*$))`: after optional whitespace the
text continues with a boolean connector or ends. -/
def lookaheadBoolEnd (s : Str) : Bool :=
  let t := s.dropWhile pyIsSpace
  t.isEmpty || hasPre t "&&".toList || hasPre t "||".toList

/-- Characters that end the value class `[^\s:()（）]`. -/
def isValStop (c : Char) : Bool :=
  pyIsSpace c || c = ':' || c = '(' || c = ')' || c = '（' || c = '）'

/-- Combination rule of `repl_sig_annot_full` for the two descriptions. -/
def combineExpl (valExpl sigExpl : Str) : Str :=
  if valExpl ≠ [] ∧ sigExpl ≠ [] then valExpl ++ '-' :: sigExpl
  else if valExpl ≠ [] then valExpl else sigExpl

/-- Backtracking tail of `pattern_sig_annot_full` after the operator: the
greedy value (longest first), `\s*`, an optional value annotation (tried
first) and the connector-or-end lookahead.  Returns (value, stripped value
annotation, rest after the match). -/
def tryFullTail (r : Str) : Nat → Option (Str × Str × Str)
  | 0 => none
  | Nat.succ l =>
    let val := r.take (Nat.succ l)
    let after := r.drop (Nat.succ l)
    let afterWs := after.dropWhile pyIsSpace
    match parseParenAnnot afterWs with
    | some (_, content, r2) =>
      if lookaheadBoolEnd r2 then some (val, strip content, r2)
      else if lookaheadBoolEnd afterWs then some (val, [], afterWs)
      else tryFullTail r l
    | none =>
      if lookaheadBoolEnd afterWs then some (val, [], afterWs)
      else tryFullTail r l

/-- `pattern_sig_annot_full` with `repl_sig_annot_full`. -/
def tryAnnotFull (s : Str) : Option (Str × Str) :=
  match parseBraced s with
  | none => none
  | some (br, r1) =>
    match parseParenAnnot (r1.dropWhile pyIsSpace) with
    | none => none
    | some (_, scontent, r3) =>
      match matchFirstOpPre (r3.dropWhile pyIsSpace) opsHead with
      | none => none
      | some (op, r5) =>
        let r6 := r5.dropWhile pyIsSpace
        let valMax := (r6.takeWhile (fun c => !isValStop c)).length
        match tryFullTail r6 valMax with
        | none => none
        | some (val, valExpl, rest) =>
          let expl := combineExpl valExpl (strip scontent)
          let val2 := insert_space_number_unit val
          let repl := if expl = [] then br ++ ' ' :: (op ++ ' ' :: val2)
                      else br ++ ' ' :: (op ++ ' ' :: (val2 ++ ':' :: ' ' :: expl))
          some (repl, rest)

/-- Backtracking value of `pattern_sig_annot_simple`: longest value whose end
satisfies the connector-or-end lookahead directly. -/
def trySimpleTail (r : Str) : Nat → Option (Str × Str)
  | 0 => none
  | Nat.succ l =>
    if lookaheadBoolEnd (r.drop (Nat.succ l)) then
      some (r.take (Nat.succ l), r.drop (Nat.succ l))
    else trySimpleTail r l

/-- `pattern_sig_annot_simple` with `repl_sig_annot_simple`. -/
def tryAnnotSimple (s : Str) : Option (Str × Str) :=
  match parseBraced s with
  | none => none
  | some (br, r1) =>
    match parseParenAnnot (r1.dropWhile pyIsSpace) with
    | none => none
    | some (_, scontent, r3) =>
      match matchFirstOpPre (r3.dropWhile pyIsSpace) opsHead with
      | none => none
      | some (op, r5) =>
        let r6 := r5.dropWhile pyIsSpace
        let valMax := (r6.takeWhile (fun c => !isValStop c)).length
        match trySimpleTail r6 valMax with
        | none => none
        | some (val, rest) =>
          let sigExpl := strip scontent
          let val2 := insert_space_number_unit val
          let repl := if sigExpl = [] then br ++ ' ' :: (op ++ ' ' :: val2)
                      else br ++ ' ' :: (op ++ ' ' :: (val2 ++ ':' :: ' ' :: sigExpl))
          some (repl, rest)

/-- `pattern_paren` with `repl_paren` (a description holding a boolean
connector is kept unchanged). -/
def tryParen (s : Str) : Option (Str × Str) :=
  match parseHead s with
  | none => none
  | some (head, r1) =>
    let val := r1.takeWhile (fun c => !isValStop c)
    if val = [] then none
    else
      let r2 := (r1.drop val.length).dropWhile pyIsSpace
      match parseParenExpl r2 with
      | none => none
      | some (_, content, r3) =>
        let expl := strip content
        let consumed := s.length - r3.length
        if containsSub expl "&&".toList || containsSub expl "||".toList then
          some (s.take consumed, r3)
        else some (head ++ insert_space_number_unit val ++ ':' :: ' ' :: expl, r3)

def isExplWordChar (c : Char) : Bool :=
  isAsciiLetter c || isAsciiDigit c || c = '_' || c = '-'

def isExplCjkChar (c : Char) : Bool :=
  isCJK c || isAsciiLetter c || isAsciiDigit c || c = '_' || c = '-'

/-- The description group of `pattern_nospace`:
`(?:[A-Za-z][A-Za-z0-9_\-]*|[CJK][CJK A-Za-z0-9_\-]*)(?:\s+[A-Za-z CJK][^:()（）]*)?`,
greedy.  Returns (raw group, rest). -/
def parseNospaceExpl (s : Str) : Option (Str × Str) :=
  match s with
  | [] => none
  | c :: rest =>
    let base : Option Str :=
      if isAsciiLetter c then some (c :: rest.takeWhile isExplWordChar)
      else if isCJK c then some (c :: rest.takeWhile isExplCjkChar)
      else none
    match base with
    | none => none
    | some b =>
      let r1 := s.drop b.length
      let w := r1.takeWhile pyIsSpace
      if w = [] then some (b, r1)
      else
        match r1.drop w.length with
        | d :: r2 =>
          if isAsciiLetter d || isCJK d then
            let tailChars := r2.takeWhile (fun x => !isParenOrColon x)
            some (b ++ w ++ d :: tailChars, r2.drop tailChars.length)
          else some (b, r1)
        | [] => some (b, r1)

/-- Lazy hex value of `pattern_nospace`'s first alternative:
`0x[0-9A-Fa-f]+?(?=(?:[A-Z][a-z])|[^0-9A-Fa-f])`, extended one digit at a
time until the lookahead holds and the following description matches.
Returns (hex digits, raw description, rest). -/
def tryNospaceHexGo (acc : Str) : Str → Option (Str × Str × Str)
  | [] => none
  | d :: rest =>
    if isHexDigit d then
      let acc2 := acc ++ [d]
      let lookOk :=
        match rest with
        | x :: y :: _ => (isAsciiUpper x && isAsciiLower y) || !isHexDigit x
        | [x] => !isHexDigit x
        | [] => false
      if lookOk then
        match parseNospaceExpl rest with
        | some (expl, r2) => some (acc2, expl, r2)
        | none => tryNospaceHexGo acc2 rest
      else tryNospaceHexGo acc2 rest
    else none

/-- Negative lookahead `(?![xX][0-9A-Fa-f])` followed by the description. -/
def nospaceNumCheck (val : Str) (rest : Str) : Option (Str × Str × Str) :=
  let negOk :=
    match rest with
    | x :: y :: _ => !((x = 'x' || x = 'X') && isHexDigit y)
    | _ => true
  if negOk then
    match parseNospaceExpl rest with
    | some (expl, r2) => some (val, expl, r2)
    | none => none
  else none

/-- Greedy-optional `%?` before the check. -/
def tryPct (val : Str) (rest : Str) : Option (Str × Str × Str) :=
  match rest with
  | '%' :: r2 =>
    match nospaceNumCheck (val ++ ['%']) r2 with
    | some res => some res
    | none => nospaceNumCheck val rest
  | _ => nospaceNumCheck val rest

/-- Greedy fraction digits (longest first). -/
def fracAttempt (pre : Str) (fds : Str) (after : Str) : Nat → Option (Str × Str × Str)
  | 0 => none
  | Nat.succ f =>
    match tryPct (pre ++ '.' :: fds.take (Nat.succ f)) (fds.drop (Nat.succ f) ++ after) with
    | some res => some res
    | none => fracAttempt pre fds after f

/-- Greedy integer digits (longest first), each length trying the fraction
first, then no fraction. -/
def numAttempt (sgn : Str) (ds : Str) (afterDs : Str) : Nat → Option (Str × Str × Str)
  | 0 => none
  | Nat.succ l =>
    let pre := sgn ++ ds.take (Nat.succ l)
    let rest := ds.drop (Nat.succ l) ++ afterDs
    let fracRes :=
      match rest with
      | '.' :: r2 =>
        let fds := r2.takeWhile Char.isDigit
        if fds = [] then none
        else fracAttempt pre fds (r2.drop fds.length) fds.length
      | _ => none
    match fracRes with
    | some res => some res
    | none =>
      match tryPct pre rest with
      | some res => some res
      | none => numAttempt sgn ds afterDs l

/-- `pattern_nospace` with `repl_nospace` (a match directly followed by `/`,
`²` or `^` is kept unchanged, protecting compound units). -/
def tryNospace (s : Str) : Option (Str × Str) :=
  match parseHead s with
  | none => none
  | some (head, r1) =>
    let alt1 : Option (Str × Str × Str) :=
      match r1 with
      | '0' :: 'x' :: r2 =>
        match tryNospaceHexGo [] r2 with
        | some (hexs, expl, r3) => some ('0' :: 'x' :: hexs, expl, r3)
        | none => none
      | _ => none
    let res : Option (Str × Str × Str) :=
      match alt1 with
      | some r => some r
      | none =>
        let sgn : Str × Str :=
          match r1 with
          | '-' :: r => (['-'], r)
          | '+' :: r => (['+'], r)
          | _ => ([], r1)
        let ds := sgn.2.takeWhile Char.isDigit
        if ds = [] then none
        else numAttempt sgn.1 ds (sgn.2.drop ds.length) ds.length
    match res with
    | none => none
    | some (val, expl, r3) =>
      let consumed := s.length - r3.length
      let keep :=
        match r3 with
        | nc :: _ => nc = '/' || nc = '²' || nc = '^'
        | [] => false
      if keep then some (s.take consumed, r3)
      else some (head ++ insert_space_number_unit val ++ ':' :: ' ' :: strip expl, r3)

def isCommaValStop (c : Char) : Bool :=
  c = ',' || c = '，' || c = ':' || c = '：' || c = '(' || c = ')' || c = '（' || c = '）' || c = '"'

def isCommaExplStop (c : Char) : Bool :=
  c = '(' || c = ')' || c = '（' || c = '）' || c = '"'

def isSpaceExplStop (c : Char) : Bool := isParenOrColon c

/-- Lazy description scan shared by `pattern_comma` and `pattern_space`: the
shortest prefix after which, past optional whitespace, a boolean connector or
the end follows; a stop character reached first fails the match.  Returns
(description, rest after the consumed whitespace). -/
def lazyExplGo (stop : Char → Bool) (acc : Str) : Str → Option (Str × Str)
  | [] => some (acc.reverse, [])
  | c :: rest =>
    let t := (c :: rest).dropWhile pyIsSpace
    if t.isEmpty || hasPre t "&&".toList || hasPre t "||".toList then some (acc.reverse, t)
    else if stop c then none
    else lazyExplGo stop (c :: acc) rest

/-- `pattern_comma` with `repl_comma` (an empty description, or a value that
already carries a colon, keeps the match unchanged). -/
def tryComma (s : Str) : Option (Str × Str) :=
  match parseHead s with
  | none => none
  | some (head, r1) =>
    let val := r1.takeWhile (fun c => !isCommaValStop c)
    if val = [] then none
    else
      match r1.drop val.length with
      | c :: r2 =>
        if c = ',' || c = '，' then
          match lazyExplGo isCommaExplStop [] (r2.dropWhile pyIsSpace) with
          | none => none
          | some (explRaw, r4) =>
            let expl := strip explRaw
            let consumed := s.length - r4.length
            let valS := insert_space_number_unit (strip val)
            if containsSub valS [':'] || containsSub valS ['：'] then
              some (s.take consumed, r4)
            else if expl = [] then some (s.take consumed, r4)
            else some (head ++ valS ++ ':' :: ' ' :: expl, r4)
        else none
      | [] => none

/-- `pattern_quoted` with `repl_quoted`. -/
def tryQuoted (s : Str) : Option (Str × Str) :=
  match parseHead s with
  | none => none
  | some (head, r1) =>
    let val := r1.takeWhile (fun c => !(isValStop c || c = '"'))
    if val = [] then none
    else
      let r2 := (r1.drop val.length).dropWhile pyIsSpace
      let quoted : Option (Str × Str) :=
        match r2 with
        | '"' :: r3 =>
          let content := r3.takeWhile (· ≠ '"')
          if content = [] then none
          else
            match r3.drop content.length with
            | '"' :: r4 => some (content, r4)
            | _ => none
        | '“' :: r3 =>
          let content := r3.takeWhile (· ≠ '”')
          if content = [] then none
          else
            match r3.drop content.length with
            | '”' :: r4 => some (content, r4)
            | _ => none
        | _ => none
      match quoted with
      | none => none
      | some (content, r4) =>
        some (head ++ insert_space_number_unit val ++ ':' :: '"' :: (strip content ++ ['"']), r4)

/-- `pattern_space` with `repl_space` (a bare `and`/`or` description keeps the
match unchanged). -/
def trySpace (s : Str) : Option (Str × Str) :=
  match parseHead s with
  | none => none
  | some (head, r1) =>
    let val := r1.takeWhile (fun c => !isValStop c)
    if val = [] then none
    else
      let r2 := r1.drop val.length
      let w := r2.takeWhile pyIsSpace
      if w = [] then none
      else
        match r2.drop w.length with
        | d :: r3 =>
          if isAsciiLetter d || isCJK d then
            match lazyExplGo isSpaceExplStop [d] r3 with
            | none => none
            | some (explRaw, r4) =>
              let expl := strip explRaw
              let consumed := s.length - r4.length
              if toLowerStr expl = "and".toList || toLowerStr expl = "or".toList then
                some (s.take consumed, r4)
              else some (head ++ insert_space_number_unit val ++ ':' :: ' ' :: expl, r4)
          else none
        | [] => none

/-- `_normalize_explanation_suffix_once`: the seven rewrites, in their order. -/
def normalize_once (text : Str) : Str :=
  pySub trySpace
    (pySub tryQuoted
      (pySub tryComma
        (pySub tryNospace
          (pySub tryParen
            (pySub tryAnnotSimple
              (pySub tryAnnotFull text))))))

/-- `normalize_explanation_suffix`: a single pass, never re-applied. -/
def normalize_explanation_suffix (text : Str) : Str := normalize_once text

def pyIsAlpha (c : Char) : Bool := isAsciiLetter c || isCJK c

def is_unit_char (c : Char) : Bool := pyIsAlpha c || c = '°' || c = 'µ'

/-- Scan left from index `i` (inclusive) while `p` holds: the first index whose
character fails `p`, or `none` when the scan runs past the left end
(Python's `-1`). -/
def scanLeftWhile (p : Char → Bool) (s : Str) : Nat → Option Nat
  | 0 =>
    match s.get? 0 with
    | some c => if p c then none else some 0
    | none => some 0
  | Nat.succ j =>
    match s.get? (Nat.succ j) with
    | some c => if p c then scanLeftWhile p s j else some (Nat.succ j)
    | none => some (Nat.succ j)

/-- Scan right from index `i` while `p` holds: the first index whose character
fails `p`, or the length when the scan runs off the end. -/
def scanRightGo (p : Char → Bool) (s : Str) : Nat → Nat → Nat
  | 0, i => i
  | Nat.succ fuel, i =>
    match s.get? i with
    | some c => if p c then scanRightGo p s fuel (i + 1) else i
    | none => i

/-- `is_unit_slash_at`: the heuristic that a `/` belongs to a measurement unit
such as `m/s` — letters on both sides and a digit (or `.`/`°`) just before the
left unit token. -/
def is_unit_slash_at (s : Str) (idx : Nat) : Bool :=
  if idx = 0 ∨ s.length ≤ idx + 1 then false
  else
    match scanLeftWhile pyIsSpace s (idx - 1) with
    | none => false
    | some li =>
      let ri := scanRightGo pyIsSpace s (s.length + 1) (idx + 1)
      if s.length ≤ ri then false
      else
        let leftCh := (s.get? li).getD ' '
        let rightCh := (s.get? ri).getD ' '
        if !(is_unit_char leftCh && is_unit_char rightCh) then false
        else
          match scanLeftWhile is_unit_char s li with
          | none => false
          | some lstart =>
            match scanLeftWhile pyIsSpace s lstart with
            | none => false
            | some pj =>
              let pc := (s.get? pj).getD ' '
              pc.isDigit || pc = '.' || pc = '°'

/-- `find_top_level_slash`: first `/` outside parentheses that is not a unit
slash. -/
def find_top_level_slash_go (s : Str) : Nat → Nat → Nat → Option Nat
  | 0, _, _ => none
  | Nat.succ fuel, idx, depth =>
    match s.get? idx with
    | none => none
    | some ch =>
      if ch = '(' ∨ ch = '（' then find_top_level_slash_go s fuel (idx + 1) (depth + 1)
      else if ch = ')' ∨ ch = '）' then find_top_level_slash_go s fuel (idx + 1) (depth - 1)
      else if ch = '/' ∧ depth = 0 then
        if is_unit_slash_at s idx then find_top_level_slash_go s fuel (idx + 1) depth
        else some idx
      else find_top_level_slash_go s fuel (idx + 1) depth

def find_top_level_slash (s : Str) : Option Nat :=
  find_top_level_slash_go s (s.length + 1) 0 0

/-- `split_by_top_level_slash`: split on top-level non-unit slashes, skipping
empty stripped segments. -/
def split_slash_go (s : Str) : Nat → Nat → Nat → Str → List Str → List Str
  | 0, _, _, bufRev, parts =>
    let tail := strip bufRev.reverse
    if tail = [] then parts.reverse else (tail :: parts).reverse
  | Nat.succ fuel, idx, depth, bufRev, parts =>
    match s.get? idx with
    | none =>
      let tail := strip bufRev.reverse
      if tail = [] then parts.reverse else (tail :: parts).reverse
    | some ch =>
      if ch = '(' ∨ ch = '（' then split_slash_go s fuel (idx + 1) (depth + 1) (ch :: bufRev) parts
      else if ch = ')' ∨ ch = '）' then split_slash_go s fuel (idx + 1) (depth - 1) (ch :: bufRev) parts
      else if ch = '/' ∧ depth = 0 then
        if is_unit_slash_at s idx then split_slash_go s fuel (idx + 1) depth (ch :: bufRev) parts
        else
          let seg := strip bufRev.reverse
          if seg = [] then split_slash_go s fuel (idx + 1) depth [] parts
          else split_slash_go s fuel (idx + 1) depth [] (seg :: parts)
      else split_slash_go s fuel (idx + 1) depth (ch :: bufRev) parts

def split_by_top_level_slash (s : Str) : List Str :=
  split_slash_go s (s.length + 1) 0 0 [] []

/-- `normalize_label_value`: `LABEL:VALUE` becomes `VALUE:LABEL` when the
label is an ASCII word and the colon is ASCII; anything else is stripped and
returned. -/
def normalize_label_value (expr : Str) : Str :=
  let t := expr.dropWhile pyIsSpace
  match t with
  | c :: rest =>
    if isAsciiLetter c then
      let lab := c :: rest.takeWhile (fun x => isAsciiLetter x || isAsciiDigit x || x = '_')
      match (t.drop lab.length).dropWhile pyIsSpace with
      | ':' :: r2 =>
        if r2 = [] ∨ containsSub r2 [':'] then strip expr
        else strip r2 ++ ':' :: lab
      | _ => strip expr
    else strip expr
  | [] => strip expr

/-- `\{[^{}]+\}\s*(==|>=|<=|!=|=|>|<)` at the start of `u`: consumed length. -/
def find_op_rhs_at (u : Str) : Option Nat :=
  match parseBraced u with
  | none => none
  | some (br, r1) =>
    let w := r1.takeWhile pyIsSpace
    match matchFirstOpPre (r1.drop w.length) opsAscii with
    | none => none
    | some (op, _) => some (br.length + w.length + op.length)

def find_op_rhs_go (s : Str) : Nat → Nat → Option Nat
  | 0, _ => none
  | Nat.succ fuel, i =>
    if s.length ≤ i then none
    else
      match find_op_rhs_at (s.drop i) with
      | some k => some (i + k)
      | none => find_op_rhs_go s fuel (i + 1)

/-- `find_op_rhs_start` (computed by the source, its result unused). -/
def find_op_rhs_start (s : Str) : Option Nat := find_op_rhs_go s (s.length + 1) 0

/-- `find_first_top_level_ascii_colon_from` (defined in the source, never
called). -/
def find_colon_go (s : Str) : Nat → Nat → Nat → Option Nat
  | 0, _, _ => none
  | Nat.succ fuel, idx, depth =>
    match s.get? idx with
    | none => none
    | some ch =>
      if ch = '(' ∨ ch = '（' then find_colon_go s fuel (idx + 1) (depth + 1)
      else if ch = ')' ∨ ch = '）' then find_colon_go s fuel (idx + 1) (depth - 1)
      else if ch = ':' ∧ depth = 0 then some idx
      else find_colon_go s fuel (idx + 1) depth

def find_first_top_level_ascii_colon_from (s : Str) (start : Nat) : Option Nat :=
  find_colon_go s (s.length + 1) start 0

def hasSuf (s suf : Str) : Bool := suf.isSuffixOf s

/-- The lookahead `\{[^{}]+\}\s*(==|>=|<=|!=|=|>|<)` holds at the start of `u`. -/
def signalLookaheadAt (u : Str) : Bool :=
  match parseBraced u with
  | none => false
  | some (_, r1) => (matchFirstOpPre (r1.dropWhile pyIsSpace) opsAscii).isSome

/-- Leftmost match of `(?P<prefix>.*?\S)\s+(?=\{signal\}op)`: the first index
`a` holding a non-whitespace character followed by whitespace whose next
non-whitespace position `q` starts a braced signal comparison. -/
def insert_colon_scan (s : Str) : Nat → Nat → Option (Nat × Nat)
  | 0, _ => none
  | Nat.succ fuel, a =>
    match s.get? a, s.get? (a + 1) with
    | some ca, some cb =>
      if !pyIsSpace ca && pyIsSpace cb then
        let q := scanRightGo pyIsSpace s (s.length + 1) (a + 1)
        if signalLookaheadAt (s.drop q) then some (a, q)
        else insert_colon_scan s fuel (a + 1)
      else insert_colon_scan s fuel (a + 1)
    | _, _ => none

/-- The inner `insert_colon_before_signal_if_prefixed` of
`handle_parse_conditions_item`. -/
def insert_colon_before_signal_if_prefixed (text : Str) : Str :=
  match insert_colon_scan text (text.length + 1) 0 with
  | none => text
  | some (a, q) =>
    let pre := text.take (a + 1)
    let lastChar := (text.get? a).getD ' '
    if lastChar = ':' ∨ lastChar = '：' ∨ lastChar = '(' ∨ lastChar = '（'
        ∨ lastChar = '[' ∨ lastChar = '【' then text
    else if hasSuf pre "&&".toList ∨ hasSuf pre "||".toList then text
    else pre ++ ':' :: lstrip (text.drop q)

/-- `^\{[^{}]+\}$`. -/
def headerIsBracedOnly (h : Str) : Bool :=
  match h with
  | '{' :: rest =>
    let content := rest.takeWhile (fun c => c != '{' && c != '}')
    !content.isEmpty && rest.drop content.length = ['}']
  | _ => false

/-- First operator of `ops` contained (as a substring) in `pre`. -/
def firstOpContained (pre : Str) : List Str → Option Str
  | [] => none
  | op :: ops => if containsSub pre op then some op else firstOpContained pre ops

/-- `handle_parse_conditions_item`: insert a colon after a descriptive prefix,
expand top-level slash alternatives of an explicit braced comparison into an
OR group, otherwise wrap when a boolean connector is present, and normalize. -/
def handle_parse_conditions_item (item0 : Str) : Str :=
  let item := insert_colon_before_signal_if_prefixed item0
  let needs_wrap := containsSub item "&&".toList || containsSub item "||".toList
                    || containsSub item ['&']
  let expanded : Option Str :=
    match find_top_level_slash item with
    | none => none
    | some sidx =>
      let pre := strip (item.take sidx)
      let post := strip (item.drop (sidx + 1))
      match firstOpContained pre opsItem with
      | none => none
      | some op =>
        let header := strip (splitFirst pre op).1
        if header ≠ [] ∧ headerIsBracedOnly header then
          let left_val_raw := strip (splitFirst pre op).2
          let rhs_raw := left_val_raw :: split_by_top_level_slash post
          let rhs := (rhs_raw.filter (fun v => strip v ≠ [])).map normalize_label_value
          let exprs := rhs.map (fun v => header ++ ' ' :: (op ++ ' ' :: v))
          some (normalize_explanation_suffix ('(' :: (joinSep " || ".toList exprs ++ [')'])))
        else none
  match expanded with
  | some r => r
  | none =>
    if needs_wrap then normalize_explanation_suffix ('(' :: (item ++ [')']))
    else normalize_explanation_suffix item

/-- The shared item handling of the condition loops: split on standalone `or`,
handle each part, OR-join when more than one part. -/
def or_join_handle (item : Str) : Str :=
  let parts := split_conditions_by_or item
  if 1 < parts.length then joinSep " || ".toList (parts.map handle_parse_conditions_item)
  else handle_parse_conditions_item item

def thenTok : Str := "THEN".toList

/-- The sub-item collection loop shared (verbatim in the source) by
`parse_nested`, the flat branch-header case and the `满足其一` lookahead:
consume numbered sub-items, indented content lines and blank lines until a
`THEN` line, another branch header or a non-indented line.  Returns the
handled items and the index where the loop stopped. -/
def collect_subitems (lines : List Str) : Nat → Nat → List Str → List Str × Nat
  | 0, i, acc => (acc, i)
  | Nat.succ fuel, i, acc =>
    match lines.get? i with
    | none => (acc, i)
    | some raw =>
      let sub := rstripNl raw
      if hasPre (strip sub) thenTok then (acc, i)
      else if branch_header_match sub then (acc, i)
      else
        match subitem_match sub with
        | some item0 => collect_subitems lines fuel (i + 1) (acc ++ [or_join_handle (strip item0)])
        | none =>
          if indent2_match sub then
            collect_subitems lines fuel (i + 1) (acc ++ [or_join_handle (strip sub)])
          else if strip sub = [] then collect_subitems lines fuel (i + 1) acc
          else (acc, i)

/-- Final assembly of `parse_nested`: empty branches dropped, the rest joined
with the outer aggregator surrounded by spaces. -/
def assembleNested (top_agg : Str) (branches : List Str) : Str :=
  joinSep (' ' :: (top_agg ++ [' '])) (branches.filter (· ≠ []))

/-- The main loop of `parse_nested`. -/
def nested_loop (lines : List Str) (top_agg : Str) : Nat → Nat → List Str → Str × Nat
  | 0, i, branches => (assembleNested top_agg branches, i)
  | Nat.succ fuel, i, branches =>
    match lines.get? i with
    | none => (assembleNested top_agg branches, i)
    | some raw =>
      let line := rstripNl raw
      if hasPre (strip line) thenTok then (assembleNested top_agg branches, i)
      else if branch_header_match line then
        let branch_agg := if containsSub line phraseAll then "&&".toList else "||".toList
        let (subs, i2) := collect_subitems lines fuel (i + 1) []
        let br := if subs ≠ [] then '(' :: (joinSep (' ' :: (branch_agg ++ [' '])) subs ++ [')'])
                  else []
        nested_loop lines top_agg fuel i2 (branches ++ [br])
      else if strip line = [] then nested_loop lines top_agg fuel (i + 1) branches
      else if (is_heading line).isSome then (assembleNested top_agg branches, i)
      else if platform_match line ∨ fsm_match line then (assembleNested top_agg branches, i)
      else
        match numdot_match line with
        | some item0 =>
          let item := strip item0
          let parts := split_conditions_by_or item
          let add := if 1 < parts.length then
                       '(' :: (joinSep " || ".toList (parts.map handle_parse_conditions_item) ++ [')'])
                     else handle_parse_conditions_item item
          nested_loop lines top_agg fuel (i + 1) (branches ++ [add])
        | none => (assembleNested top_agg branches, i)

def parse_nested (lines : List Str) (i : Nat) (top_agg : Str) : Str × Nat :=
  nested_loop lines top_agg (lines.length + 1) i []

/-- After the nested parse: advance to the `THEN` line (stopping early at a
new `IF` or a heading). -/
def scan_to_then (lines : List Str) : Nat → Nat → Nat
  | 0, m => m
  | Nat.succ fuel, m =>
    match lines.get? m with
    | none => m
    | some l =>
      if hasPre (strip l) thenTok then m
      else if strip l = "IF".toList then m
      else if (is_heading l).isSome then m
      else scan_to_then lines fuel (m + 1)

def skip_blank (lines : List Str) : Nat → Nat → Nat
  | 0, j => j
  | Nat.succ fuel, j =>
    match lines.get? j with
    | none => j
    | some l => if strip l = [] then skip_blank lines fuel (j + 1) else j

/-- Final assembly of the flat condition loop: the joiner is the ambient
aggregator verbatim when one was set (no added spaces), `" && "` otherwise. -/
def assembleFlat (aggSet : Option Str) (collected : List Str) : Str :=
  if collected = [] then [] else joinSep (aggSet.getD " && ".toList) collected

/-- One post-branch-header step of the flat loop: the guide-phrase checks and
the plain item handling, computing the next index, ambient aggregator and
collected list.  `line` is the line the iteration started on (the source
falls through to these checks with the original `line` even after an empty
branch-header collection advanced the index). -/
def flat_step (lines : List Str) (fuel : Nat) (line : Str) (i : Nat) (aggSet : Option Str)
    (collected : List Str) : Nat × Option Str × List Str :=
  if containsSub line phraseAll then (i + 1, some "&&".toList, collected)
  else if containsSub line phraseAny then
    let (subs, la) := collect_subitems lines fuel (i + 1) []
    if subs ≠ [] then (la, aggSet, collected ++ ['(' :: (joinSep " || ".toList subs ++ [')'])])
    else (i + 1, some "||".toList, collected)
  else
    let item := match numdot_match line with
                | some it => strip it
                | none => strip line
    if item ≠ [] then (i + 1, aggSet, collected ++ [or_join_handle item])
    else (i + 1, aggSet, collected)

/-- The flat (non-nested) loop of `parse_conditions`. -/
def flat_loop (lines : List Str) : Nat → Nat → Option Str → List Str → Str × Nat
  | 0, i, aggSet, collected => (assembleFlat aggSet collected, i)
  | Nat.succ fuel, i, aggSet, collected =>
    match lines.get? i with
    | none => (assembleFlat aggSet collected, i)
    | some raw =>
      let line := rstripNl raw
      if strip line = [] then flat_loop lines fuel (i + 1) aggSet collected
      else if hasPre (strip line) thenTok then (assembleFlat aggSet collected, i)
      else if branch_header_match line then
        let subgroup_agg := if containsSub line phraseAll then "&&".toList else "||".toList
        let (subs, i2) := collect_subitems lines fuel (i + 1) []
        if subs ≠ [] then
          flat_loop lines fuel i2 aggSet
            (collected ++ ['(' :: (joinSep (' ' :: (subgroup_agg ++ [' '])) subs ++ [')'])])
        else
          let st := flat_step lines fuel line i2 aggSet collected
          flat_loop lines fuel st.1 st.2.1 st.2.2
      else
        let st := flat_step lines fuel line i aggSet collected
        flat_loop lines fuel st.1 st.2.1 st.2.2

/-- `parse_conditions`: the blank-skipping pre-scan, the nested two-level path
when a top-level guide phrase is followed by a branch header, otherwise the
flat loop (with the ambient aggregator already set when the guide phrase was
seen). -/
def parse_conditions (lines : List Str) (start_idx : Nat) : Str × Nat :=
  let j := skip_blank lines (lines.length + 1) start_idx
  match lines.get? j with
  | some lj =>
    if containsSub lj phraseAll ∨ containsSub lj phraseAny then
      let aggregator := if containsSub lj phraseAll then "&&".toList else "||".toList
      let k := skip_blank lines (lines.length + 1) (j + 1)
      let isBranch := match lines.get? k with
                      | some lk => branch_header_match lk
                      | none => false
      if isBranch then
        let (cond, idxAfter) := parse_nested lines k aggregator
        (cond, scan_to_then lines (lines.length + 1) idxAfter)
      else flat_loop lines (lines.length + 1) (j + 1) (some aggregator) []
    else flat_loop lines (lines.length + 1) start_idx none []
  | none => flat_loop lines (lines.length + 1) start_idx none []

/-- The stop test of `parse_results`: heading, platform or state-machine
sentinel, or a new `IF`; blank lines do not stop the block. -/
def should_stop (line : Str) : Bool :=
  if strip line = [] then false
  else if (is_heading line).isSome then true
  else if platform_match line then true
  else if fsm_match line then true
  else if strip line = "IF".toList then true
  else false

def join_items (items : List Str) : Str :=
  joinSep " && ".toList ((items.map strip).filter (· ≠ []))

def results_assemble (thenL elseL : List Str) : Str :=
  let t := join_items thenL
  let e := join_items elseL
  if t ≠ [] ∧ e ≠ [] then "THEN: ".toList ++ (t ++ (" || ELSE: ".toList ++ e))
  else if t ≠ [] then t else e

/-- The scan of `parse_results`; the flag records whether the current section
is `ELSE` (content before any keyword goes to `THEN`, like the source's
`None`). -/
def results_loop (lines : List Str) : Nat → Nat → Bool → List Str → List Str → Str × Nat
  | 0, i, _, thenL, elseL => (results_assemble thenL elseL, i)
  | Nat.succ fuel, i, isElse, thenL, elseL =>
    match lines.get? i with
    | none => (results_assemble thenL elseL, i)
    | some raw =>
      let line := rstripNl raw
      if should_stop line then (results_assemble thenL elseL, i)
      else if hasPre (strip line) thenTok then results_loop lines fuel (i + 1) false thenL elseL
      else if hasPre (strip line) "ELSE".toList then results_loop lines fuel (i + 1) true thenL elseL
      else if strip line = [] then results_loop lines fuel (i + 1) isElse thenL elseL
      else
        let item0 := match numdot_match line with
                     | some it => strip it
                     | none => strip line
        let item := normalize_explanation_suffix item0
        if isElse then results_loop lines fuel (i + 1) isElse thenL (elseL ++ [item])
        else results_loop lines fuel (i + 1) isElse (thenL ++ [item]) elseL

def parse_results (lines : List Str) (start_idx : Nat) : Str × Nat :=
  results_loop lines (lines.length + 1) start_idx false [] []

/-- One output row: requirement id, test point, initial condition, test
steps, expected result. -/
abbrev Row := Str × Str × Str × Str × Str

instance : DecidableEq Row := by infer_instance

/-- The heading-stack update of the main loop: drop every entry at the new
heading's level or deeper, then store the heading at its level.  The stack is
the level-to-heading mapping of the source, as an association list. -/
def stackUpdate (stack : List (Nat × Heading)) (h : Heading) : List (Nat × Heading) :=
  let level := heading_level h.num
  (stack.filter (fun e => e.1 < level)) ++ [(level, h)]

def stackGet (stack : List (Nat × Heading)) (lev : Nat) : Option Heading :=
  match stack.find? (fun e => e.1 == lev) with
  | some e => some e.2
  | none => none

def deepestLevel (stack : List (Nat × Heading)) : Option Nat :=
  match stack with
  | [] => none
  | _ => some (stack.foldl (fun m e => max m e.1) 0)

/-- Walk from `lev` down to level 1 and return the first heading carrying a
non-empty id. -/
def nearest_with_id_go (stack : List (Nat × Heading)) : Nat → Option Heading
  | 0 => none
  | Nat.succ lev =>
    match stackGet stack (Nat.succ lev) with
    | some h =>
      match h.id with
      | some v => if v ≠ [] then some h else nearest_with_id_go stack lev
      | none => nearest_with_id_go stack lev
    | none => nearest_with_id_go stack lev

def fromTok : Str := "from".toList

def toTok : Str := "to".toList

/-- The from/to rewrite of `extract_rows` (its lines 764–771): when the
result text contains `from`, the head (before the first `from`), the source
value (before the first `to` of the segment after `from`) and the target
value (between the first and second `to` of that segment) are recombined;
the unguarded second index into the `to`-split raises `IndexError` in the
source when that segment has no `to`, modelled here by `none`.  Without
`from` the result text is appended to the initial condition. -/
def applyFromTo (hil_init results_str : Str) : Option (Str × Str) :=
  if containsSub results_str fromTok then
    let fparts := pySplit results_str fromTok
    let head := strip (fparts.getD 0 [])
    let tparts := pySplit (fparts.getD 1 []) toTok
    let from_message := strip (tparts.getD 0 [])
    match tparts.get? 1 with
    | none => none
    | some t1 =>
      some (hil_init ++ " : ".toList ++ (head ++ " = ".toList ++ from_message),
            head ++ " = ".toList ++ strip t1)
  else some (hil_init ++ " : ".toList ++ results_str, results_str)

/-- The row-emission block of `extract_rows` (its lines 775–810): the test
point loses its leading token when it contains a space; when the initial
condition contains `=` and the segment between its first and second `=`
contains `/`, one row is appended per slash alternative (times one per
`Either&&` branch when those exist), otherwise one row (per branch). -/
def emit_rows (req_id test_point hil_init cond_str results_str : Str)
    (cond_strs : List Str) : List Row :=
  let tp := if containsSub test_point [' '] then (splitFirst test_point [' ']).2 else test_point
  let mk : Str → Str → Row := fun value c => (req_id, tp, value, c, results_str)
  let perValue : Str → List Row := fun value =>
    if cond_strs = [] then [mk value cond_str] else cond_strs.map (mk value)
  if containsSub hil_init ['='] then
    let hil_init_value := strip ((pySplit hil_init ['=']).getD 1 [])
    let hil_init_value_head := strip ((pySplit hil_init ['=']).getD 0 [])
    if containsSub hil_init_value ['/'] then
      flat_map (fun v => perValue (hil_init_value_head ++ " = ".toList ++ v))
        (pySplit hil_init_value ['/'])
    else perValue hil_init
  else perValue hil_init

/-- The main loop of `extract_rows`: track headings, and on an `IF` sentinel
parse the block, build the fields and append the emitted rows; `none`
propagates the `IndexError` of the from/to rewrite. -/
def extract_loop (lines : List Str) : Nat → Nat → List (Nat × Heading) → List Row →
    Option (List Row)
  | 0, _, _, rows => some rows
  | Nat.succ fuel, i, stack, rows =>
    match lines.get? i with
    | none => some rows
    | some raw =>
      let line := rstripNl raw
      match is_heading line with
      | some h => extract_loop lines fuel (i + 1) (stackUpdate stack h) rows
      | none =>
        if strip line = "IF".toList then
          let deepest := deepestLevel stack
          let nearest := match deepest with
                         | some d => nearest_with_id_go stack d
                         | none => none
          let third := stackGet stack 3
          let condRes := parse_conditions lines (i + 1)
          let resultsRes := parse_results lines condRes.2
          let req_id := strip (match nearest with
                               | some h => h.id.getD []
                               | none => [])
          let test_point0 :=
            match nearest with
            | some h => h.num ++ ' ' :: h.title
            | none =>
              match deepest with
              | some d =>
                match stackGet stack d with
                | some h2 => h2.num ++ ' ' :: h2.title
                | none => []
              | none => []
          let hil0 := match third with
                      | some h => h.title
                      | none => []
          let hil1 := if containsSub hil0 "->".toList then (splitFirst hil0 "->".toList).1
                      else hil0
          let test_point := normalize_text test_point0
          let hil2 := normalize_text hil1
          let cond_str := normalize_text condRes.1
          let results0 := normalize_text resultsRes.1
          match applyFromTo hil2 results0 with
          | none => none
          | some (hil3, results1) =>
            let cond_strs :=
              if containsSub cond_str "Either&&".toList then
                pySplit ((pySplit cond_str "Either&&".toList).getD 1 []) "&&OR&&".toList
              else []
            extract_loop lines fuel resultsRes.2 stack
              (rows ++ emit_rows req_id test_point hil3 cond_str results1 cond_strs)
        else extract_loop lines fuel (i + 1) stack rows

/-- `extract_rows`: split the document into lines and run the main loop;
`none` is the `IndexError` escape of the source. -/
def extract_rows (text : Str) : Option (List Row) :=
  let lines := splitlines text
  extract_loop lines (lines.length + 1) 0 [] []

/-- The heading-processing fragment of the main loop of `extract_rows`
(recognize a heading, prune the levels at or below it, store it), folded over
a sequence of lines; non-heading lines leave the stack unchanged. -/
def run_heading_lines (ls : List Str) : List (Nat × Heading) :=
  ls.foldl (fun st l =>
    match is_heading (rstripNl l) with
    | some h => stackUpdate st h
    | none => st) []

def c1_text : Str := "IF\nTHEN\n1. a from b".toList

def c2_text : Str :=
  "3.2.1 Lane Keep【REQ-7】\nIF\n  1. 以下条件同时满足\n    {v}==1\n    {w}>5 (HighSpeed)\nTHEN\n  1. {out}=1".toList

def c2_row : Row :=
  ("REQ-7".toList, "Lane Keep".toList, "Lane Keep : out=1".toList,
   "v==1&&w>5: HighSpeed".toList, "out=1".toList)

def c2_claim_steps : Str := "({v} == 1 && {w} > 5: HighSpeed)".toList

def c2_claim_result : Str := "{out} = 1".toList

def c3_text : Str :=
  "IF\n以下条件满足其一\n  1. 以下条件同时满足\n    1. A\n    2. B\n  2. 以下条件满足其一\n    1. C\n    2. D\nTHEN\n1. R".toList

def c3_lines : List Str := splitlines c3_text

def c3_row : Row := ([], [], " : R".toList, "(A && B) || (C || D)".toList, ['R'])

def eitherMarker : Str := "Either&&".toList

def c4_bad_text : Str := "1.1.1 mode = A\nIF\nC1\nTHEN\nx=1/2".toList

def c4_bad_row : Row :=
  ([], "mode = A".toList, "mode = A : x=1/2".toList, "C1".toList, "x=1/2".toList)

def c4_good_text : Str := "1.1.1 speed = 60/80\nIF\nX\nTHEN\nok".toList

def c4_row60 : Row := ([], "speed = 60/80".toList, "speed = 60".toList, ['X'], "ok".toList)

def c4_row80 : Row := ([], "speed = 60/80".toList, "speed = 80 : ok".toList, ['X'], "ok".toList)

/-- Modelled from the spec: claim C4 reads the initial-condition value as the
text after its final `=`; the source instead uses the segment between the
first and second `=` (`split("=")[1]`). -/
def spec_value_after_final_eq (s : Str) : Str := (pySplit s ['=']).getLastD []

def c5_lines3 : List Str := ["1 A", "1.1 B", "1.2 C"].map String.toList

def c5_lines4 : List Str := ["1 A", "1.1 B", "1.2 C", "2 D"].map String.toList

def c5_h12 : Heading := ⟨"1.2".toList, ['C'], none⟩

def c6_lines : List Str :=
  ["IF", "以下条件同时满足", "  1. 以下条件同时满足", "    1. A", "    2. B",
   "  2. 以下条件满足其一", "    1. C", "    2. D", "THEN", "1. R"].map String.toList

def c8_lines_both : List Str := ["THEN", "1. p", "2. q", "ELSE", "1. r"].map String.toList

def c8_lines_then : List Str := ["THEN", "1. p", "2. q"].map String.toList

/-- Modelled from the spec: a string in the canonical
`signal op value: description` form that the normalization pass produces. -/
def spec_canonical_string (sig op val desc : Str) : Str :=
  sig ++ ' ' :: (op ++ ' ' :: (val ++ ':' :: ' ' :: desc))

/-- The initial-condition value inspected by `emit_rows`: the stripped segment
between the first and second `=` (`hil_init.split("=")[1].strip()`). -/
def value_segment (init : Str) : Str := strip ((pySplit init ['=']).getD 1 [])

/-- The text before the first `=`, stripped
(`hil_init.split("=")[0].strip()`). -/
def value_head (init : Str) : Str := strip ((pySplit init ['=']).getD 0 [])

/-- C1: the spec says no exception ever escapes `extract_rows` and every
malformed block still yields a Record; the code contradicts this: for a block
whose result text contains `from` with no following `to`, the unguarded
`split("to")[1]` raises `IndexError` (the embedding's `none`), so the claim's
no-exception guarantee fails on this input. -/
theorem C1_extract_rows_raises_on_from_without_to : extract_rows c1_text = none := by decide

/-- C2: counterexample to the claimed end-to-end record.  The extractor does
produce exactly one record with requirement id `REQ-7`, but its steps field is
`v==1&&w>5: HighSpeed` (braces stripped by the output normalization, the
ambient `&&` joiner applied without spaces, no parentheses) and its expected
result is `out=1`, not the claimed `({v} == 1 && {w} > 5: HighSpeed)` and
`{out} = 1`. -/
theorem C2_counterexample :
    extract_rows c2_text = some [c2_row] ∧ c2_row.2.2.2.1 ≠ c2_claim_steps
      ∧ c2_row.2.2.2.2 ≠ c2_claim_result :=
  ⟨by decide, by decide, by decide⟩

/-- C2 (amended): on the claimed input the extractor yields exactly one
record: requirement id `REQ-7`, test point `Lane Keep`, initial condition
`Lane Keep : out=1`, steps `v==1&&w>5: HighSpeed` and expected result
`out=1`. -/
theorem C2_amended_record : extract_rows c2_text = some [c2_row] := by decide

/-- C3: counterexample.  For top-level OR branches produced by the
nested-branch routine the condition expression contains no `Either&&` marker
(the routine joins with ` || `), and the extractor emits a single record with
the embedded OR instead of one record per branch. -/
theorem C3_counterexample :
    containsSub (parse_conditions c3_lines 1).1 eitherMarker = false
      ∧ (extract_rows c3_text).map List.length = some 1 :=
  ⟨by decide, by decide⟩

/-- C3 (amended): the nested-branch routine joins top-level OR branches with
` || ` and never inserts the internal `Either&&` marker, so the extractor's
marker-splitting does not trigger and one record carrying the embedded OR is
emitted. -/
theorem C3_amended :
    parse_conditions c3_lines 1 = ("(A && B) || (C || D)".toList, 8)
      ∧ extract_rows c3_text = some [c3_row] :=
  ⟨by decide, by decide⟩

/-- C4: counterexample.  For an initial condition with two `=` signs
(`mode = A : x=1/2`) the text after the final `=` is `1/2`, which contains a
slash, so the claim demands one record per alternative; the code instead
inspects the segment between the first and second `=` (`A : x`), finds no
slash, and emits a single unexpanded record. -/
theorem C4_counterexample :
    containsSub (strip (spec_value_after_final_eq c4_bad_row.2.2.1)) ['/'] = true
      ∧ extract_rows c4_bad_text = some [c4_bad_row] :=
  ⟨by decide, by decide⟩

/-- C5: counterexample.  `1` and `2` are not recognized as headings
(`HEADING_RE` demands a dotted number with at least two components), so after
processing `1`, `1.1`, `1.2` the stack holds no level-1 entry, and after `2`
it still holds no level-1 entry — against the claimed
`{level1: 1, level2: 1.2}` and `{level1: 2}` states. -/
theorem C5_counterexample :
    stackGet (run_heading_lines c5_lines3) 1 = none
      ∧ stackGet (run_heading_lines c5_lines4) 1 = none :=
  ⟨by decide, by decide⟩

/-- C5 (amended): for the sequence `1`, `1.1`, `1.2`, `2` the single-component
numbers are not headings and leave the stack unchanged; just after `1.2` the
stack holds exactly the level-2 heading `1.2` (which replaced `1.1`), and just
after `2` it is unchanged, still exactly the level-2 heading `1.2`. -/
theorem C5_amended :
    run_heading_lines c5_lines3 = [(2, c5_h12)]
      ∧ run_heading_lines c5_lines4 = [(2, c5_h12)] :=
  ⟨by decide, by decide⟩

/-- C6: for a nested IF block with outer guide phrase "all of the following"
and two branch headers — branch 1 "all of the following" with items A, B and
branch 2 "any one of the following" with items C, D — the produced condition
expression is `(A && B) && (C || D)`. -/
theorem C6_nested_two_level_expression :
    parse_conditions c6_lines 1 = ("(A && B) && (C || D)".toList, 8) := by decide

/-- C8: for THEN items `[p, q]` and ELSE items `[r]`, `parse_results` yields
the labeled OR combination `THEN: p && q || ELSE: r`; with THEN items only it
yields the unlabeled `p && q`; each section is AND-joined. -/
theorem C8_then_else_combination :
    parse_results c8_lines_both 0 = ("THEN: p && q || ELSE: r".toList, 5)
      ∧ parse_results c8_lines_then 0 = ("p && q".toList, 3) :=
  ⟨by decide, by decide⟩

/-- C9: counterexample to idempotence.  The canonical string
`{X} = 135kph: fast` (signal `{X}`, op `=`, value `135kph`, description
`fast`) is changed by the normalization pass: the no-space rule re-splits the
value into `135: kph`. -/
theorem C9_counterexample :
    normalize_explanation_suffix
        (spec_canonical_string "{X}".toList "=".toList "135kph".toList "fast".toList)
      ≠ spec_canonical_string "{X}".toList "=".toList "135kph".toList "fast".toList := by decide

/-- C9 (amended): normalization is not idempotent on every canonical string —
a canonical value ending in a unit-like letter suffix is re-split
(`{X} = 135kph: fast` becomes `{X} = 135: kph: fast`) — though it does fix
canonical strings whose value admits no further rewrite, such as
`{X} == 0x0: Unavailable`. -/
theorem C9_amended :
    normalize_explanation_suffix
        (spec_canonical_string "{X}".toList "==".toList "0x0".toList "Unavailable".toList)
      = spec_canonical_string "{X}".toList "==".toList "0x0".toList "Unavailable".toList
    ∧ normalize_explanation_suffix
        (spec_canonical_string "{X}".toList "=".toList "135kph".toList "fast".toList)
      = "{X} = 135: kph: fast".toList :=
  ⟨by decide, by decide⟩

theorem pySplitGo_ne_nil (sep : Str) : ∀ fuel s, pySplitGo sep fuel s ≠ [] := by
  intro fuel s
  cases fuel with
  | zero => simp [pySplitGo]
  | succ n =>
    simp only [pySplitGo]
    split <;> simp

theorem pySplit_cons_of_contains (s sep : Str) (h : containsSub s sep = true) :
    ∃ a b t, pySplit s sep = a :: b :: t := by
  unfold containsSub at h
  unfold pySplit
  simp only [pySplitGo]
  cases hf : findSubAux sep s 0 with
  | none => rw [hf] at h; simp at h
  | some i =>
    simp only [breakSub, hf]
    cases hg : pySplitGo sep s.length (s.drop (i + sep.length)) with
    | nil => exact absurd hg (pySplitGo_ne_nil sep _ _)
    | cons b t => exact ⟨_, b, t, rfl⟩

theorem pySplit_single_of_not_contains (s sep : Str) (h : containsSub s sep = false) :
    pySplit s sep = [s] := by
  unfold containsSub at h
  unfold pySplit
  simp only [pySplitGo]
  cases hf : findSubAux sep s 0 with
  | none => simp [breakSub, hf]
  | some i => rw [hf] at h; simp at h

theorem flat_map_length_const (f : α → List β) (c : Nat) (h : ∀ a, (f a).length = c) :
    ∀ l : List α, (flat_map f l).length = l.length * c := by
  intro l
  induction l with
  | nil => simp [flat_map]
  | cons x xs ih =>
    simp only [flat_map, List.length_append, h x, ih, List.length_cons, Nat.succ_mul]
    omega

theorem mem_flat_map (f : α → List β) (b : β) :
    ∀ l : List α, b ∈ flat_map f l ↔ ∃ a ∈ l, b ∈ f a := by
  intro l
  induction l with
  | nil => simp [flat_map]
  | cons x xs ih => simp [flat_map, ih]

/-- C4 (amended): the expansion key is the segment between the first and
second `=` of the initial condition (not the text after the final `=`).  When
that segment contains a slash, the emitted rows are exactly one per slash
alternative, Cartesian with the `Either&&` branches when those exist, each
row's initial condition being the head before the first `=` re-joined with
the single alternative; and the `speed = 60/80` example yields exactly the
two records, both carrying condition `X`. -/
theorem C4_amended :
    (∀ req tp init cond res conds, containsSub init ['='] = true →
        containsSub (value_segment init) ['/'] = true →
        ((emit_rows req tp init cond res conds).length
            = (pySplit (value_segment init) ['/']).length
                * (if conds = [] then 1 else conds.length)
          ∧ ∀ r ∈ emit_rows req tp init cond res conds,
              ∃ v ∈ pySplit (value_segment init) ['/'],
                r.2.2.1 = value_head init ++ " = ".toList ++ v
                ∧ ((conds = [] ∧ r.2.2.2.1 = cond) ∨ r.2.2.2.1 ∈ conds)))
    ∧ extract_rows c4_good_text = some [c4_row60, c4_row80] := by
  constructor
  · intro req tp init cond res conds h1 h2
    unfold value_segment value_head at *
    simp only [emit_rows, h1, h2, if_true, ite_true]
    constructor
    · apply flat_map_length_const
      intro a
      cases conds with
      | nil => simp
      | cons c cs => simp [if_neg (List.cons_ne_nil c cs)]
    · intro r hr
      rw [mem_flat_map] at hr
      obtain ⟨v, hv, hrv⟩ := hr
      refine ⟨v, hv, ?_⟩
      cases conds with
      | nil =>
        rw [if_pos rfl, List.mem_singleton] at hrv
        subst hrv
        exact ⟨rfl, Or.inl ⟨rfl, rfl⟩⟩
      | cons c cs =>
        rw [if_neg (List.cons_ne_nil c cs), List.mem_map] at hrv
        obtain ⟨c2, hc2, heq⟩ := hrv
        subst heq
        exact ⟨rfl, Or.inr hc2⟩
  · decide

/-- Witness for C4: the initial condition `a=1/2` (whose first-`=` segment is
`1/2`) with no `Either&&` branches yields as many rows as slash
alternatives. -/
theorem C4_amended_witness :
    (emit_rows [] [] "a=1/2".toList "C".toList "R".toList []).length
      = (pySplit (value_segment "a=1/2".toList) ['/']).length
          * (if ([] : List Str) = [] then 1 else ([] : List Str).length) :=
  (C4_amended.1 [] [] "a=1/2".toList "C".toList "R".toList [] (by decide) (by decide)).1

/-- C7: counterexample.  A result expression containing `from` with no
following `to` does not match the claimed "from A to B" pattern, so by the
claim the extractor should append the full result to the initial condition;
the code instead fails on it (`IndexError`, the embedding's `none`). -/
theorem C7_counterexample :
    applyFromTo "X".toList "a from b".toList
        ≠ some ("X : a from b".toList, "a from b".toList)
      ∧ applyFromTo "X".toList "a from b".toList = none :=
  ⟨by decide, by decide⟩

/-- C7 (amended): when the result text has no `from` it is appended to the
initial condition as `initial : result`; when it contains `from` and the
segment between the first and second `from` contains `to`, the rewrite
produces `head = B` as the result and folds `head = A` into the initial
condition, with head the text before the first `from`, A the segment before
its first `to` and B the segment between its first and second `to`; and when
`from` occurs with no `to` after it, the block fails instead of appending. -/
theorem C7_amended :
    (∀ init res : Str, containsSub res fromTok = false →
        applyFromTo init res = some (init ++ " : ".toList ++ res, res))
    ∧ (∀ init res : Str, containsSub res fromTok = true →
        containsSub ((pySplit res fromTok).getD 1 []) toTok = true →
        applyFromTo init res = some
          (init ++ " : ".toList ++ (strip ((pySplit res fromTok).getD 0 []) ++ " = ".toList ++
            strip ((pySplit ((pySplit res fromTok).getD 1 []) toTok).getD 0 [])),
           strip ((pySplit res fromTok).getD 0 []) ++ " = ".toList ++
            strip ((pySplit ((pySplit res fromTok).getD 1 []) toTok).getD 1 [])))
    ∧ (∀ init res : Str, containsSub res fromTok = true →
        containsSub ((pySplit res fromTok).getD 1 []) toTok = false →
        applyFromTo init res = none) := by
  refine ⟨?_, ?_, ?_⟩
  · intro init res h
    simp [applyFromTo, h]
  · intro init res h1 h2
    obtain ⟨a, b, t, he⟩ := pySplit_cons_of_contains _ _ h2
    simp only [List.getD_eq_getElem?_getD] at he ⊢
    simp [applyFromTo, h1, he]
  · intro init res h1 h2
    have he := pySplit_single_of_not_contains _ _ h2
    simp only [List.getD_eq_getElem?_getD] at he ⊢
    simp [applyFromTo, h1, he]

/-- Witness for C7: the three behaviors at concrete inputs — plain append,
the from/to rewrite, and the failing from-without-to case. -/
theorem C7_amended_witness :
    applyFromTo "Init".toList "ok".toList = some ("Init : ok".toList, "ok".toList)
      ∧ applyFromTo [] "mode changes from A to B".toList
          = some (" : mode changes = A".toList, "mode changes = B".toList)
      ∧ applyFromTo [] "a from b c".toList = none := by
  refine ⟨?_, ?_, ?_⟩
  · exact C7_amended.1 "Init".toList "ok".toList (by decide)
  · exact (C7_amended.2.1 [] "mode changes from A to B".toList (by decide) (by decide)).trans
      (by decide)
  · exact C7_amended.2.2 [] "a from b c".toList (by decide) (by decide)

theorem skip_blank_mono (lines : List Str) : ∀ fuel j, j ≤ skip_blank lines fuel j := by
  intro fuel
  induction fuel with
  | zero => intro j; simp [skip_blank]
  | succ n ih =>
    intro j
    simp only [skip_blank]
    split
    · exact Nat.le_refl j
    · split
      · exact Nat.le_trans (Nat.le_succ j) (ih (j + 1))
      · exact Nat.le_refl j

theorem scan_to_then_mono (lines : List Str) : ∀ fuel m, m ≤ scan_to_then lines fuel m := by
  intro fuel
  induction fuel with
  | zero => intro m; simp [scan_to_then]
  | succ n ih =>
    intro m
    simp only [scan_to_then]
    split
    · exact Nat.le_refl m
    · split
      · exact Nat.le_refl m
      · split
        · exact Nat.le_refl m
        · split
          · exact Nat.le_refl m
          · exact Nat.le_trans (Nat.le_succ m) (ih (m + 1))

theorem collect_subitems_mono (lines : List Str) :
    ∀ fuel i acc, i ≤ (collect_subitems lines fuel i acc).2 := by
  intro fuel
  induction fuel with
  | zero => intro i acc; simp [collect_subitems]
  | succ n ih =>
    intro i acc
    simp only [collect_subitems]
    split
    · exact Nat.le_refl i
    · split
      · exact Nat.le_refl i
      · split
        · exact Nat.le_refl i
        · split
          · exact Nat.le_trans (Nat.le_succ i) (ih (i + 1) _)
          · split
            · exact Nat.le_trans (Nat.le_succ i) (ih (i + 1) _)
            · split
              · exact Nat.le_trans (Nat.le_succ i) (ih (i + 1) _)
              · exact Nat.le_refl i

theorem nested_loop_mono (lines : List Str) (agg : Str) :
    ∀ fuel i br, i ≤ (nested_loop lines agg fuel i br).2 := by
  intro fuel
  induction fuel with
  | zero => intro i br; simp [nested_loop]
  | succ n ih =>
    intro i br
    simp only [nested_loop]
    split
    · exact Nat.le_refl i
    · split
      · exact Nat.le_refl i
      · split
        · exact Nat.le_trans
            (Nat.le_trans (Nat.le_succ i) (collect_subitems_mono lines n (i + 1) []))
            (ih _ _)
        · split
          · exact Nat.le_trans (Nat.le_succ i) (ih (i + 1) _)
          · split
            · exact Nat.le_refl i
            · split
              · exact Nat.le_refl i
              · split
                · exact Nat.le_trans (Nat.le_succ i) (ih (i + 1) _)
                · exact Nat.le_refl i

theorem flat_step_advance (lines : List Str) (fuel : Nat) (line : Str) (i : Nat)
    (agg : Option Str) (col : List Str) : i < (flat_step lines fuel line i agg col).1 := by
  simp only [flat_step]
  split
  · dsimp only; omega
  · split
    · split
      · dsimp only
        have := collect_subitems_mono lines fuel (i + 1) []
        omega
      · dsimp only; omega
    · split
      · dsimp only; omega
      · dsimp only; omega

theorem flat_loop_mono (lines : List Str) :
    ∀ fuel i agg col, i ≤ (flat_loop lines fuel i agg col).2 := by
  intro fuel
  induction fuel with
  | zero => intro i agg col; simp [flat_loop]
  | succ n ih =>
    intro i agg col
    simp only [flat_loop]
    split
    · exact Nat.le_refl i
    · split
      · exact Nat.le_trans (Nat.le_succ i) (ih (i + 1) _ _)
      · split
        · exact Nat.le_refl i
        · split
          · split
            · exact Nat.le_trans
                (Nat.le_trans (Nat.le_succ i) (collect_subitems_mono lines n (i + 1) []))
                (ih _ _ _)
            · refine Nat.le_trans ?_ (ih _ _ _)
              exact Nat.le_of_lt (Nat.lt_of_le_of_lt
                (Nat.le_trans (Nat.le_succ i) (collect_subitems_mono lines n (i + 1) []))
                (flat_step_advance _ _ _ _ _ _))
          · refine Nat.le_trans ?_ (ih _ _ _)
            exact Nat.le_of_lt (flat_step_advance _ _ _ _ _ _)

theorem results_loop_mono (lines : List Str) :
    ∀ fuel i b tl el, i ≤ (results_loop lines fuel i b tl el).2 := by
  intro fuel
  induction fuel with
  | zero => intro i b tl el; simp [results_loop]
  | succ n ih =>
    intro i b tl el
    simp only [results_loop]
    split
    · exact Nat.le_refl i
    · split
      · exact Nat.le_refl i
      · split
        · exact Nat.le_trans (Nat.le_succ i) (ih (i + 1) _ _ _)
        · split
          · exact Nat.le_trans (Nat.le_succ i) (ih (i + 1) _ _ _)
          · split
            · exact Nat.le_trans (Nat.le_succ i) (ih (i + 1) _ _ _)
            · split
              · exact Nat.le_trans (Nat.le_succ i) (ih (i + 1) _ _ _)
              · exact Nat.le_trans (Nat.le_succ i) (ih (i + 1) _ _ _)

theorem parse_results_mono (lines : List Str) (s : Nat) : s ≤ (parse_results lines s).2 :=
  results_loop_mono lines _ s false [] []

theorem parse_conditions_mono (lines : List Str) (s : Nat) :
    s ≤ (parse_conditions lines s).2 := by
  have hj := skip_blank_mono lines (lines.length + 1) s
  simp only [parse_conditions]
  split
  · split
    · split
      · dsimp only [parse_nested]
        refine Nat.le_trans ?_ (scan_to_then_mono _ _ _)
        refine Nat.le_trans ?_ (nested_loop_mono _ _ _ _ _)
        have hk := skip_blank_mono lines (lines.length + 1)
            (skip_blank lines (lines.length + 1) s + 1)
        omega
      · refine Nat.le_trans ?_ (flat_loop_mono _ _ _ _ _)
        omega
    · exact flat_loop_mono lines (lines.length + 1) s none []
  · exact flat_loop_mono lines (lines.length + 1) s none []

/-- C10: every loop of the extractor advances.  `parse_conditions` called at
any start index returns an index at least that start, `parse_results`
likewise, and hence the main loop of `extract_rows`, which jumps from an `IF`
at index `i` to `parse_results` applied at the index `parse_conditions`
reached from `i + 1`, strictly increases its line index, so a single pass
over a finite line list terminates. -/
theorem C10_scan_index_monotone :
    (∀ lines s, s ≤ (parse_conditions lines s).2)
    ∧ (∀ lines s, s ≤ (parse_results lines s).2)
    ∧ (∀ lines i, i < (parse_results lines (parse_conditions lines (i + 1)).2).2) := by
  refine ⟨parse_conditions_mono, parse_results_mono, ?_⟩
  intro lines i
  have h1 := parse_conditions_mono lines (i + 1)
  have h2 := parse_results_mono lines (parse_conditions lines (i + 1)).2
  omega

end ParseMd
